import Mathlib

/-!
Verification development for the MQL5-Architect front end.

The TypeScript sources are shallowly embedded:
* JavaScript string primitives (trim, slice, startsWith) act on `List Char`;
* the Gemini service module (prompt construction, markdown-fence stripping,
  response handling) becomes pure functions, with the external API call and
  JSON.parse supplied as explicit arguments;
* the PDF helper becomes a fuel-based page loop over an abstract document;
* the React component state becomes a record, and its event handlers become
  a step function over an operation alphabet; `Date.now()` readings are
  explicit numeric inputs, and an id is the decimal string of a reading,
  exactly as `Date.now().toString()` produces in the source.
-/

namespace MqlArchitect

/-! ### JavaScript string primitives

ASCII whitespace as recognised by `String.prototype.trim` and the `\s`
regex class (the embedding restricts to the ASCII subset). -/

def jsWS (c : Char) : Bool :=
  c = ' ' || c = '\t' || c = '\n' || c = '\r' || c = '\x0b' || c = '\x0c'

def trimLeftChars (l : List Char) : List Char := l.dropWhile jsWS

def trimRightChars (l : List Char) : List Char := (l.reverse.dropWhile jsWS).reverse

def trimChars (l : List Char) : List Char := trimRightChars (trimLeftChars l)

/-- JavaScript `s.trim()`. -/
def jsTrim (s : String) : String := String.mk (trimChars s.data)

/-- JavaScript `s.slice(0, n)`. -/
def jsSlice (s : String) (n : Nat) : String := String.mk (s.data.take n)

/-- JavaScript `s.startsWith(p)`. -/
def jsStartsWith (s p : String) : Bool := p.data.isPrefixOf s.data

/-- JavaScript truthiness of a possibly-absent string: `undefined` and the
empty string are falsy, every other string is truthy. -/
def jsTruthyStr : Option String → Bool
  | none => false
  | some s => !(s == "")

/-! ### Data model (src/unnamed/part_001, the `types` module) -/

inductive CodeType
  | expertAdvisor
  | indicator
  | script
  | library
deriving DecidableEq, Repr

/-- The string value of each `CodeType` enum member. -/
def CodeType.label : CodeType → String
  | .expertAdvisor => "Expert Advisor"
  | .indicator => "Indicator"
  | .script => "Script"
  | .library => "Library"

inductive ChatRole
  | user
  | model
deriving DecidableEq, Repr

structure ChatMessage where
  id : String
  role : ChatRole
  content : String
  hasCodeUpdate : Option Bool := none
  timestamp : Nat
deriving DecidableEq, Repr

structure GenerationHistoryItem where
  id : String
  prompt : String
  type : CodeType
  code : String
  timestamp : Nat
deriving DecidableEq, Repr

/-- Parsed shape of a successful generation reply. -/
structure GenResult where
  code : String
  explanation : String
deriving DecidableEq, Repr

/-- Parsed shape of a successful chat reply; `updatedCode` is optional. -/
structure ChatResult where
  reply : String
  updatedCode : Option String := none
deriving DecidableEq, Repr

/-- The external API response as far as the source inspects it: its
possibly-absent `text` field. -/
structure ApiResponse where
  text : Option String
deriving DecidableEq, Repr

/-! ### Gemini service module (src/unnamed/part_000) -/

/-- The three-backtick fence, written with hex escapes. -/
def fenceChars : List Char := "\x60\x60\x60".data

/-- The three-backtick fence followed by `json`. -/
def fenceJsonChars : List Char := "\x60\x60\x60json".data

/-- Effect of the replacement `replace(/\s*\x60\x60\x60$/, "")`: when the text
ends with a fence, that final fence and the maximal run of whitespace
immediately before it are removed; otherwise the text is unchanged. -/
def stripTrailingFence (l : List Char) : List Char :=
  if fenceChars.isSuffixOf l then trimRightChars (l.take (l.length - 3)) else l

/-- Embedding of `cleanJsonOutput` (part_000 lines 41-49). -/
def cleanJsonOutput (s : String) : String :=
  let t := trimChars s.data
  if fenceJsonChars.isPrefixOf t then
    String.mk (stripTrailingFence (trimLeftChars (t.drop fenceJsonChars.length)))
  else if fenceChars.isPrefixOf t then
    String.mk (stripTrailingFence (trimLeftChars (t.drop fenceChars.length)))
  else
    String.mk t

/-- Role label used when rendering one history message into the
conversation-context string (part_000 line 128). -/
def roleLabel : ChatRole → String
  | .user => "User"
  | .model => "Assistant"

/-- Embedding of the conversation-context construction in `chatWithCode`
(part_000 lines 126-129): JavaScript `slice(-10)` keeps the last ten
elements (all of them when there are fewer), then each message is rendered
with its role label and the lines are joined with newlines. -/
def conversationContext (chatHistory : List ChatMessage) : String :=
  String.intercalate "\n"
    ((chatHistory.drop (chatHistory.length - 10)).map
      (fun msg => roleLabel msg.role ++ ": " ++ msg.content))

/-- Head of the generation prompt template (part_000 lines 57-62). -/
def generatePromptHead (prompt : String) (ty : CodeType) : String :=
  "\n    Create an MQL5 " ++ ty.label ++ ".\n    \n    User Requirement:\n    "
    ++ prompt ++ "\n  "

/-- Text of the documentation block before the interpolated slice
(part_000 lines 65-71). -/
def generateDocPre : String :=
  "\n    \n    REFERENCE DOCUMENTATION:\n    The user has provided the following documentation/context to assist with this task. \n    Use the functions, syntax, and libraries defined in this documentation where applicable, especially if they differ from standard libraries.\n    \n    --- BEGIN DOCUMENTATION ---\n    "

/-- Text of the documentation block after the interpolated slice
(part_000 lines 72-75). -/
def generateDocPost : String :=
  " \n    --- END DOCUMENTATION ---\n    (Note: Documentation may be truncated if it exceeds limits, prioritize recent API usage)\n    "

/-- Trailing instruction appended to every generation prompt
(part_000 lines 78-80). -/
def generatePromptTail : String :=
  "\n    Ensure the code is complete and compilable in MetaEditor.\n  "

/-- Embedding of the full-prompt construction in `generateMql5`
(part_000 lines 57-80); the documentation block is appended only when the
optional context is truthy, and its content is `slice(0, 500000)`. -/
def buildGeneratePrompt (prompt : String) (ty : CodeType)
    (documentationContext : Option String) : String :=
  let base := generatePromptHead prompt ty
  let withDoc :=
    if jsTruthyStr documentationContext then
      base ++ generateDocPre ++ jsSlice (documentationContext.getD "") 500000
        ++ generateDocPost
    else base
  withDoc ++ generatePromptTail

/-- Head of the chat prompt template (part_000 lines 131-142), with the
code fence written using hex escapes. -/
def chatPromptHead (currentCode : String) (chatHistory : List ChatMessage)
    (userMessage : String) : String :=
  "\n    CURRENT MQL5 CODE CONTEXT:\n    \x60\x60\x60mql5\n    " ++ currentCode
    ++ "\n    \x60\x60\x60\n\n    CONVERSATION HISTORY:\n    "
    ++ conversationContext chatHistory ++ "\n\n    USER REQUEST:\n    "
    ++ userMessage ++ "\n  "

/-- Text of the chat documentation block before the interpolated slice
(part_000 lines 145-147). -/
def chatDocPre : String := "\n    REFERENCE DOCUMENTATION:\n    "

/-- Text of the chat documentation block after the interpolated slice
(part_000 lines 147-148). -/
def chatDocPost : String := "\n    "

/-- Embedding of the full-prompt construction in `chatWithCode`
(part_000 lines 131-149); the documentation block is appended only when the
optional context is truthy, and its content is `slice(0, 100000)`. -/
def buildChatPrompt (currentCode : String) (chatHistory : List ChatMessage)
    (userMessage : String) (documentationContext : Option String) : String :=
  let base := chatPromptHead currentCode chatHistory userMessage
  if jsTruthyStr documentationContext then
    base ++ chatDocPre ++ jsSlice (documentationContext.getD "") 100000 ++ chatDocPost
  else base

/-- Message of the error thrown when the API response carries no text. -/
def noResponseMessage : String := "No response generated"

/-- Embedding of the response handling of `generateMql5`
(part_000 lines 82-115).  The external call outcome is an explicit
argument: a thrown error (re-thrown by the catch block) or a response whose
`text` field drives the truthiness test; `JSON.parse` is the explicit
`parseGen` collaborator, whose failure is likewise re-thrown. -/
def generateMql5 (parseGen : String → Except String GenResult)
    (apiResult : Except String ApiResponse) : Except String GenResult :=
  match apiResult with
  | .error e => .error e
  | .ok resp =>
    match resp.text with
    | some s => if s == "" then .error noResponseMessage else parseGen (cleanJsonOutput s)
    | none => .error noResponseMessage

/-- Embedding of the response handling of `chatWithCode`
(part_000 lines 151-184), structured exactly as `generateMql5`. -/
def chatWithCode (parseChat : String → Except String ChatResult)
    (apiResult : Except String ApiResponse) : Except String ChatResult :=
  match apiResult with
  | .error e => .error e
  | .ok resp =>
    match resp.text with
    | some s => if s == "" then .error noResponseMessage else parseChat (cleanJsonOutput s)
    | none => .error noResponseMessage

/-! ### PDF helper module (src/utils/pdfHelper.ts) -/

/-- Abstract view of a loaded PDF document: its reported page count and,
for each page number, either that page&apos;s text-content item strings or a
failure of `getPage`/`getTextContent`. -/
structure PdfDoc where
  numPages : Nat
  pageItems : Nat → Except String (List String)

/-- Separator written before page `i` (pdfHelper.ts line 32). -/
def pdfPageSep (i : Nat) : String := "\n--- Page " ++ Nat.repr i ++ " ---\n"

/-- Message of the single error thrown by the catch block
(pdfHelper.ts line 38). -/
def pdfErrorMessage : String :=
  "Failed to extract text from PDF. The file might be corrupted or encrypted."

/-- Embedding of the page loop of `extractTextFromPdf`
(pdfHelper.ts lines 22-33): iterate `i` from 1 to `numPages`,
appending the separator and the space-joined item strings of each page;
a failing page aborts the loop with its error. -/
def extractPagesAux (doc : PdfDoc) : Nat → Nat → String → Except String String
  | 0, _, acc => .ok acc
  | fuel + 1, i, acc =>
    match doc.pageItems i with
    | .error e => .error e
    | .ok items =>
      extractPagesAux doc fuel (i + 1)
        (acc ++ pdfPageSep i ++ String.intercalate " " items)

/-- Embedding of `extractTextFromPdf` (pdfHelper.ts lines 14-40): the file
either fails to load or yields a document; any error inside the try block
is replaced by the single fixed error of the catch block. -/
def extractTextFromPdf (file : Except String PdfDoc) : Except String String :=
  match file with
  | .error _ => .error pdfErrorMessage
  | .ok doc =>
    match extractPagesAux doc doc.numPages 1 "" with
    | .error _ => .error pdfErrorMessage
    | .ok t => .ok t

/-- Statement-side vocabulary: the list of per-page texts of `n` pages
starting at page `i`, each page&apos;s text being its item strings joined
with spaces, propagating the first page failure. -/
def pageTexts (doc : PdfDoc) : Nat → Nat → Except String (List String)
  | 0, _ => .ok []
  | fuel + 1, i =>
    match doc.pageItems i with
    | .error e => .error e
    | .ok items =>
      match pageTexts doc fuel (i + 1) with
      | .error e => .error e
      | .ok ts => .ok (String.intercalate " " items :: ts)

/-! ### Application component (src/App.tsx) -/

/-- The slice of the browser `File` object the component inspects. -/
structure FileMeta where
  name : String
  type : String
deriving DecidableEq, Repr

inductive ActiveTab
  | history
  | chat
deriving DecidableEq, Repr

/-- The React state of the `App` component (App.tsx lines 29-49), one field
per `useState` hook. -/
structure AppState where
  prompt : String
  codeType : CodeType
  isGenerating : Bool
  currentCode : String
  explanation : String
  error : Option String
  activeTab : ActiveTab
  history : List GenerationHistoryItem
  chatMessages : List ChatMessage
  chatInput : String
  isChatLoading : Bool
  uploadedFile : Option FileMeta
  pdfContent : String
  isParsingPdf : Bool
deriving DecidableEq, Repr

/-- Initial values of every `useState` hook. -/
def initialState : AppState where
  prompt := ""
  codeType := .expertAdvisor
  isGenerating := false
  currentCode := "// Your MQL5 code will appear here..."
  explanation := ""
  error := none
  activeTab := .chat
  history := []
  chatMessages := []
  chatInput := ""
  isChatLoading := false
  uploadedFile := none
  pdfContent := ""
  isParsingPdf := false

/-- Arguments the component passes to `generateMql5`
(App.tsx line 138). -/
structure GenRequest where
  prompt : String
  codeType : CodeType
  documentationContext : String
deriving DecidableEq, Repr

/-- Arguments the component passes to `chatWithCode`
(App.tsx line 187); note the history passed is the list as it stood
before the user message was appended. -/
structure ChatRequest where
  currentCode : String
  chatHistory : List ChatMessage
  userMessage : String
  documentationContext : String
deriving DecidableEq, Repr

/-- Fallback of `err.message || "Failed to generate code. Please try again."`
(App.tsx line 161). -/
def generateErrorFallback (m : String) : String :=
  if m == "" then "Failed to generate code. Please try again." else m

/-- The initial assistant message installed after a successful generation
(App.tsx lines 153-158). -/
def initialChatMessage (t : Nat) (ty : CodeType) (explanation : String) : ChatMessage where
  id := Nat.repr t
  role := .model
  content := "I\x27ve generated the " ++ ty.label ++ " code based on your request. "
    ++ explanation
  timestamp := t

/-- Embedding of `handleGenerate` (App.tsx lines 126-166).  `t` is the
`Date.now()` reading of the synchronous block after the await; `result` is
the outcome of the awaited `generateMql5` call, its error payload being
`err.message`.  Returns the final state together with the dispatched
request, `none` when the blank-prompt guard returned early. -/
def handleGenerate (s : AppState) (t : Nat) (result : Except String GenResult) :
    AppState × Option GenRequest :=
  if jsTrim s.prompt == "" then (s, none)
  else
    let request : GenRequest :=
      { prompt := s.prompt, codeType := s.codeType, documentationContext := s.pdfContent }
    match result with
    | .ok r =>
      ({ s with
          isGenerating := false
          error := none
          explanation := r.explanation
          activeTab := .chat
          currentCode := r.code
          history :=
            { id := Nat.repr t, prompt := s.prompt, type := s.codeType,
              code := r.code, timestamp := t } :: s.history
          chatMessages := [initialChatMessage t s.codeType r.explanation] },
        some request)
    | .error m =>
      ({ s with
          isGenerating := false
          error := some (generateErrorFallback m)
          explanation := ""
          activeTab := .chat
          currentCode := "// Error generating code." },
        some request)

/-- The fixed assistant reply of the chat error path (App.tsx line 209). -/
def chatErrorReply : String :=
  "I encountered an error while processing your request. Please try again."

/-- Embedding of `handleChatSubmit` (App.tsx lines 168-216).  `t1` is the
`Date.now()` reading when the user message is built, `t2` the reading of
the block after the await (the success path derives the reply id from
`Date.now() + 1`, the error path from `Date.now()` alone).  Returns the
final state and the dispatched request, `none` when the guard returned. -/
def handleChatSubmit (s : AppState) (t1 t2 : Nat) (result : Except Unit ChatResult) :
    AppState × Option ChatRequest :=
  if jsTrim s.chatInput == "" || s.isChatLoading then (s, none)
  else
    let userMsg : ChatMessage :=
      { id := Nat.repr t1, role := .user, content := s.chatInput, timestamp := t1 }
    let contextCode :=
      if jsStartsWith s.currentCode "// Your MQL5 code" then "" else s.currentCode
    let request : ChatRequest :=
      { currentCode := contextCode, chatHistory := s.chatMessages,
        userMessage := s.chatInput, documentationContext := s.pdfContent }
    match result with
    | .ok r =>
      let aiMsg : ChatMessage :=
        { id := Nat.repr (t2 + 1), role := .model, content := r.reply,
          hasCodeUpdate := some (jsTruthyStr r.updatedCode), timestamp := t2 }
      ({ s with
          chatMessages := s.chatMessages ++ [userMsg, aiMsg]
          chatInput := ""
          isChatLoading := false
          currentCode :=
            if jsTruthyStr r.updatedCode then r.updatedCode.getD "" else s.currentCode },
        some request)
    | .error _ =>
      let errMsg : ChatMessage :=
        { id := Nat.repr t2, role := .model, content := chatErrorReply, timestamp := t2 }
      ({ s with
          chatMessages := s.chatMessages ++ [userMsg, errMsg]
          chatInput := ""
          isChatLoading := false },
        some request)

/-- The assistant message installed on restore (App.tsx lines 223-228). -/
def restoredChatMessage (t : Nat) (p : String) : ChatMessage where
  id := Nat.repr t
  role := .model
  content := "Restored version: " ++ p
  timestamp := t

/-- Embedding of `restoreFromHistory` (App.tsx lines 218-230). -/
def restoreFromHistory (s : AppState) (t : Nat) (item : GenerationHistoryItem) : AppState :=
  { s with
      prompt := item.prompt
      codeType := item.type
      currentCode := item.code
      explanation := "// Restored from history"
      chatMessages := [restoredChatMessage t item.prompt]
      activeTab := .chat }

/-- Fallback of `err.message || "Failed to parse PDF."` (App.tsx line 70). -/
def pdfParseFallback (m : String) : String :=
  if m == "" then "Failed to parse PDF." else m

/-- Embedding of `processFile` (App.tsx lines 56-80); `result` is the
outcome of the awaited `extractTextFromPdf` call. -/
def processFile (s : AppState) (f : FileMeta) (result : Except String String) : AppState :=
  if f.type != "application/pdf" then
    { s with error := some "Please upload a valid PDF file." }
  else
    match result with
    | .ok text =>
      { s with uploadedFile := some f, isParsingPdf := false, error := none,
               pdfContent := text }
    | .error m =>
      { s with uploadedFile := none, isParsingPdf := false,
               error := some (pdfParseFallback m), pdfContent := "" }

/-- Embedding of `removeFile` (App.tsx lines 121-124). -/
def removeFile (s : AppState) : AppState :=
  { s with uploadedFile := none, pdfContent := "" }

/-- The operation alphabet of the component: each state-changing event
handler, with its external outcomes and clock readings as payload. -/
inductive Op
  | generate (t : Nat) (result : Except String GenResult)
  | chatSubmit (t1 t2 : Nat) (result : Except Unit ChatResult)
  | restore (t : Nat) (index : Nat)
  | fileUpload (f : FileMeta) (result : Except String String)
  | fileRemove
  | setPromptText (v : String)
  | setChatInputText (v : String)
  | setCodeTypeValue (v : CodeType)
  | setActiveTabValue (v : ActiveTab)

/-- One UI transition.  `restore` fires only for an index of the rendered
history list, matching the history-tab buttons. -/
def step (s : AppState) (op : Op) : AppState :=
  match op with
  | .generate t result => (handleGenerate s t result).1
  | .chatSubmit t1 t2 result => (handleChatSubmit s t1 t2 result).1
  | .restore t index =>
    match s.history[index]? with
    | some item => restoreFromHistory s t item
    | none => s
  | .fileUpload f result => processFile s f result
  | .fileRemove => removeFile s
  | .setPromptText v => { s with prompt := v }
  | .setChatInputText v => { s with chatInput := v }
  | .setCodeTypeValue v => { s with codeType := v }
  | .setActiveTabValue v => { s with activeTab := v }

/-- State reached from the initial state by a sequence of operations. -/
def runOps (ops : List Op) : AppState := ops.foldl step initialState

/-! ### Clock discipline and identifier invariants -/

/-- Clock discipline for a trace: every `Date.now()` reading exceeds the
previous reading by at least 2; `last` is the reading taken before the
remaining operations.  A chat submission takes two readings (the user
message before the await, the reply after it). -/
def clockOk : Nat → List Op → Prop
  | _, [] => True
  | last, op :: rest =>
    match op with
    | .generate t _ => last + 2 ≤ t ∧ clockOk t rest
    | .chatSubmit t1 t2 _ => last + 2 ≤ t1 ∧ t1 + 2 ≤ t2 ∧ clockOk t2 rest
    | .restore t _ => last + 2 ≤ t ∧ clockOk t rest
    | _ => clockOk last rest

/-- Identifier lists whose entries are decimal renderings of values at most
`bound`, pairwise distinct. -/
def IdsOk (bound : Nat) (ids : List String) : Prop :=
  (∀ i ∈ ids, ∃ v, v ≤ bound ∧ i = Nat.repr v) ∧ ids.Nodup

/-- Both identifier columns of the state are bounded and duplicate-free. -/
def StateIdsOk (s : AppState) (bound : Nat) : Prop :=
  IdsOk bound (s.chatMessages.map ChatMessage.id) ∧
  IdsOk bound (s.history.map GenerationHistoryItem.id)

/-! ### Concrete states and traces for witnesses and counterexamples -/

/-- A fresh state with a non-blank prompt. -/
def genWitState : AppState := { initialState with prompt := "p" }

/-- A state holding one history record, for the restore frame witness. -/
def restoreWitState : AppState :=
  { initialState with
      history := [{ id := "3", prompt := "old", type := .indicator,
                    code := "oldCode", timestamp := 3 }] }

/-- State reached after one user chat turn that failed: the chat list holds
the user message and the error reply. -/
def c2State : AppState :=
  runOps [.setPromptText "p", .setChatInputText "q", .chatSubmit 1 3 (.error ())]

/-- A trace whose generation and chat submission share the reading 5: the
initial assistant message, the user message and the error reply all get
identifier "5". -/
def c3Trace : List Op :=
  [.setPromptText "p", .generate 5 (.ok ⟨"c", "e"⟩), .setChatInputText "q",
   .chatSubmit 5 5 (.error ())]

/-- A clock-disciplined trace: readings 2, 4, 6 are pairwise at least 2
apart. -/
def clockedTrace : List Op :=
  [.setPromptText "p", .generate 2 (.ok ⟨"c", "e"⟩), .setChatInputText "q",
   .chatSubmit 4 6 (.ok ⟨"r", some "nc"⟩)]

/-! ### Shared sample data for witnesses and counterexamples -/

/-- A concrete chat message used in witness statements. -/
def sampleMsg (i : Nat) : ChatMessage where
  id := Nat.repr i
  role := .user
  content := "m" ++ Nat.repr i
  timestamp := i

/-- Rendering of one message inside the conversation context. -/
def renderMsg (m : ChatMessage) : String := roleLabel m.role ++ ": " ++ m.content

/-! ### Claims about the PDF helper -/

/-- Concatenation, in order, of the pages of a document: each page text is
preceded by its separator. -/
def concatPages : List Nat → List String → String
  | i :: is, t :: ts => pdfPageSep i ++ t ++ concatPages is ts
  | _, _ => ""

/-- A concrete two-page document for the C5 witness. -/
def sampleDoc : PdfDoc where
  numPages := 2
  pageItems := fun i => .ok [Nat.repr i, "text"]

/-! ### Injectivity of the decimal rendering used by `Date.now().toString()`

The source derives record identifiers with `Date.now().toString()`; the
embedding renders a reading `t : Nat` as `Nat.repr t`.  Distinctness of
identifiers therefore reduces to injectivity of `Nat.repr`, proved here by
relating the fuel-based core function `Nat.toDigitsCore` to `Nat.digits`. -/

theorem digitChar_inj_lt :
    ∀ d, d < 10 → ∀ e, e < 10 → Nat.digitChar d = Nat.digitChar e → d = e := by
  decide

theorem toDigitsCore_eq_digits :
    ∀ (fuel n : Nat) (ds : List Char), n < fuel → 0 < n →
      Nat.toDigitsCore 10 fuel n ds =
        ((Nat.digits 10 n).map Nat.digitChar).reverse ++ ds := by
  intro fuel
  induction fuel with
  | zero => intro n ds h _; omega
  | succ f ih =>
    intro n ds h hn
    have hdig : Nat.digits 10 n = n % 10 :: Nat.digits 10 (n / 10) :=
      Nat.digits_def' (by norm_num) hn
    by_cases hq : n / 10 = 0
    · simp only [Nat.toDigitsCore, hq, if_pos]
      rw [hdig, hq]
      simp
    · have hlt : n / 10 < f := by
        have h1 : n / 10 < n := Nat.div_lt_self hn (by norm_num)
        omega
      have hpos : 0 < n / 10 := Nat.pos_of_ne_zero hq
      simp only [Nat.toDigitsCore, hq, if_neg, ite_false]
      rw [ih (n / 10) (Nat.digitChar (n % 10) :: ds) hlt hpos, hdig]
      simp

theorem toDigits_eq_digits (n : Nat) (hn : 0 < n) :
    Nat.toDigits 10 n = ((Nat.digits 10 n).map Nat.digitChar).reverse := by
  unfold Nat.toDigits
  rw [toDigitsCore_eq_digits (n + 1) n [] (Nat.lt_succ_self n) hn]
  simp

theorem map_digitChar_inj :
    ∀ (l₁ l₂ : List Nat), (∀ x ∈ l₁, x < 10) → (∀ x ∈ l₂, x < 10) →
      l₁.map Nat.digitChar = l₂.map Nat.digitChar → l₁ = l₂ := by
  intro l₁
  induction l₁ with
  | nil => intro l₂ _ _ h; cases l₂ <;> simp_all
  | cons a t ih =>
    intro l₂ h₁ h₂ h
    cases l₂ with
    | nil => simp_all
    | cons b t' =>
      simp only [List.map_cons, List.cons.injEq] at h
      have ha : a < 10 := h₁ a (by simp)
      have hb : b < 10 := h₂ b (by simp)
      have hab : a = b := digitChar_inj_lt a ha b hb h.1
      have ht : t = t' := by
        refine ih t' (fun x hx => h₁ x (by simp [hx])) (fun x hx => h₂ x (by simp [hx])) h.2
      rw [hab, ht]

theorem digits_map_eq_of_repr_eq {m n : Nat} (h : Nat.repr m = Nat.repr n) :
    Nat.toDigits 10 m = Nat.toDigits 10 n := by
  have h' := congrArg String.data h
  simpa [Nat.repr, List.asString] using h'

theorem ofDigits_single_zero : Nat.ofDigits 10 [0] = 0 := by
  simp [Nat.ofDigits]

theorem nat_repr_injective : Function.Injective Nat.repr := by
  intro m n h
  have h' := digits_map_eq_of_repr_eq h
  rcases Nat.eq_zero_or_pos m with hm | hm <;> rcases Nat.eq_zero_or_pos n with hn | hn
  · omega
  · exfalso
    subst hm
    rw [toDigits_eq_digits n hn] at h'
    have h0 : Nat.toDigits 10 0 = ['0'] := by decide
    rw [h0] at h'
    have hmap : (Nat.digits 10 n).map Nat.digitChar = ['0'] := by
      have := congrArg List.reverse h'
      simpa using this.symm
    cases hd : Nat.digits 10 n with
    | nil => rw [hd] at hmap; simp at hmap
    | cons d rest =>
      rw [hd] at hmap
      simp only [List.map_cons, List.cons.injEq] at hmap
      have hrest : rest = [] := by
        have := hmap.2
        cases rest <;> simp_all
      have hdlt : d < 10 := Nat.digits_lt_base (by norm_num) (by rw [hd]; simp)
      have hd0 : d = 0 := by
        have : Nat.digitChar d = Nat.digitChar 0 := by simpa using hmap.1
        exact digitChar_inj_lt d hdlt 0 (by norm_num) this
      have hn' : n = Nat.ofDigits 10 (Nat.digits 10 n) := (Nat.ofDigits_digits 10 n).symm
      rw [hd, hrest, hd0, ofDigits_single_zero] at hn'
      omega
  · exfalso
    subst hn
    rw [toDigits_eq_digits m hm] at h'
    have h0 : Nat.toDigits 10 0 = ['0'] := by decide
    rw [h0] at h'
    have hmap : (Nat.digits 10 m).map Nat.digitChar = ['0'] := by
      have := congrArg List.reverse h'
      simpa using this
    cases hd : Nat.digits 10 m with
    | nil => rw [hd] at hmap; simp at hmap
    | cons d rest =>
      rw [hd] at hmap
      simp only [List.map_cons, List.cons.injEq] at hmap
      have hrest : rest = [] := by
        have := hmap.2
        cases rest <;> simp_all
      have hdlt : d < 10 := Nat.digits_lt_base (by norm_num) (by rw [hd]; simp)
      have hd0 : d = 0 := by
        have : Nat.digitChar d = Nat.digitChar 0 := by simpa using hmap.1
        exact digitChar_inj_lt d hdlt 0 (by norm_num) this
      have hm' : m = Nat.ofDigits 10 (Nat.digits 10 m) := (Nat.ofDigits_digits 10 m).symm
      rw [hd, hrest, hd0, ofDigits_single_zero] at hm'
      omega
  · rw [toDigits_eq_digits m hm, toDigits_eq_digits n hn] at h'
    have hmap : (Nat.digits 10 m).map Nat.digitChar = (Nat.digits 10 n).map Nat.digitChar := by
      have := congrArg List.reverse h'
      simpa using this
    have hdig : Nat.digits 10 m = Nat.digits 10 n := by
      refine map_digitChar_inj _ _ ?_ ?_ hmap
      · exact fun x hx => Nat.digits_lt_base (by norm_num) hx
      · exact fun x hx => Nat.digits_lt_base (by norm_num) hx
    calc m = Nat.ofDigits 10 (Nat.digits 10 m) := (Nat.ofDigits_digits 10 m).symm
    _ = Nat.ofDigits 10 (Nat.digits 10 n) := by rw [hdig]
    _ = n := Nat.ofDigits_digits 10 n

/-- Length of a string built from an explicit character list. -/
theorem string_mk_length (l : List Char) : (String.mk l).length = l.length := rfl

/-! ### Claims about the Gemini service -/

/-- C1: the conversation context sent in the outbound chat request is built
from exactly the last 10 messages of the history (all of them when there
are 10 or fewer), joined in array order with role labels; messages before
the last 10 contribute nothing. -/
theorem chat_context_uses_exactly_last_ten :
    ∀ (pre tenTail h : List ChatMessage),
      (tenTail.length = 10 →
        conversationContext (pre ++ tenTail) =
          String.intercalate "\n" (tenTail.map renderMsg)) ∧
      (h.length ≤ 10 →
        conversationContext h = String.intercalate "\n" (h.map renderMsg)) := by
  intro pre tenTail h
  constructor
  · intro h10
    unfold conversationContext renderMsg
    have hlen : (pre ++ tenTail).length - 10 = pre.length := by
      simp [List.length_append, h10]
    rw [hlen, List.drop_left]
  · intro hle
    unfold conversationContext renderMsg
    have h0 : h.length - 10 = 0 := Nat.sub_eq_zero_of_le hle
    rw [h0, List.drop_zero]

/-- Witness for C1 at a history of 12 messages (only the last 10 are kept)
and a history of 1 message (kept whole). -/
theorem chat_context_uses_exactly_last_ten_witness :
    conversationContext
        ([sampleMsg 11, sampleMsg 12] ++ List.replicate 10 (sampleMsg 1)) =
      String.intercalate "\n" ((List.replicate 10 (sampleMsg 1)).map renderMsg) ∧
    conversationContext [sampleMsg 2] =
      String.intercalate "\n" ([sampleMsg 2].map renderMsg) := by
  exact
    ⟨(chat_context_uses_exactly_last_ten [sampleMsg 11, sampleMsg 12]
        (List.replicate 10 (sampleMsg 1)) [sampleMsg 2]).1 (by simp),
     (chat_context_uses_exactly_last_ten [sampleMsg 11, sampleMsg 12]
        (List.replicate 10 (sampleMsg 1)) [sampleMsg 2]).2 (by simp)⟩

/-- C4: `cleanJsonOutput` first trims the reply; when the trimmed text
starts with a fence (the json-tagged fence checked first), that leading
fence with its following whitespace is removed and a trailing fence with
its preceding whitespace is removed when present; otherwise the trimmed
text is returned unchanged. -/
theorem cleanJsonOutput_fence_stripping :
    ∀ s : String,
      (fenceJsonChars.isPrefixOf (trimChars s.data) = true →
        cleanJsonOutput s =
          String.mk (stripTrailingFence
            (trimLeftChars ((trimChars s.data).drop fenceJsonChars.length)))) ∧
      (fenceJsonChars.isPrefixOf (trimChars s.data) = false →
        fenceChars.isPrefixOf (trimChars s.data) = true →
        cleanJsonOutput s =
          String.mk (stripTrailingFence
            (trimLeftChars ((trimChars s.data).drop fenceChars.length)))) ∧
      (fenceJsonChars.isPrefixOf (trimChars s.data) = false →
        fenceChars.isPrefixOf (trimChars s.data) = false →
        cleanJsonOutput s = jsTrim s) := by
  intro s
  refine ⟨?_, ?_, ?_⟩
  · intro h1
    simp [cleanJsonOutput, h1]
  · intro h1 h2
    simp [cleanJsonOutput, h1, h2]
  · intro h1 h2
    simp [cleanJsonOutput, jsTrim, h1, h2]

/-- Witness for C4 on three concrete replies: a json-tagged fenced reply,
a bare fenced reply, and an unfenced reply returned trimmed. -/
theorem cleanJsonOutput_fence_stripping_witness :
    cleanJsonOutput " \x60\x60\x60json\n[1, 2]\n\x60\x60\x60 " = "[1, 2]" ∧
    cleanJsonOutput "\x60\x60\x60\n[3]\n\x60\x60\x60" = "[3]" ∧
    cleanJsonOutput "  plain reply " = "plain reply" := by
  refine ⟨?_, ?_, ?_⟩
  · exact ((cleanJsonOutput_fence_stripping " \x60\x60\x60json\n[1, 2]\n\x60\x60\x60 ").1
      (by decide)).trans (by decide)
  · exact (((cleanJsonOutput_fence_stripping "\x60\x60\x60\n[3]\n\x60\x60\x60").2.1
      (by decide)) (by decide)).trans (by decide)
  · exact (((cleanJsonOutput_fence_stripping "  plain reply ").2.2
      (by decide)) (by decide)).trans (by decide)

/-- C8: the generation prompt embeds at most the first 500000 characters of
the documentation context and the chat prompt at most the first 100000
(each embedded slice is a prefix of the context of bounded length); an
absent or empty context omits the documentation section entirely. -/
theorem prompt_doc_truncation :
    ∀ (p : String) (ty : CodeType) (code msg : String)
      (hist : List ChatMessage) (d : String),
      (d ≠ "" →
        buildGeneratePrompt p ty (some d) =
          generatePromptHead p ty ++ generateDocPre ++ jsSlice d 500000
            ++ generateDocPost ++ generatePromptTail) ∧
      (jsSlice d 500000).length ≤ 500000 ∧
      (∃ rest, d.data = (jsSlice d 500000).data ++ rest) ∧
      buildGeneratePrompt p ty none = generatePromptHead p ty ++ generatePromptTail ∧
      buildGeneratePrompt p ty (some "") =
        generatePromptHead p ty ++ generatePromptTail ∧
      (d ≠ "" →
        buildChatPrompt code hist msg (some d) =
          chatPromptHead code hist msg ++ chatDocPre ++ jsSlice d 100000
            ++ chatDocPost) ∧
      (jsSlice d 100000).length ≤ 100000 ∧
      (∃ rest, d.data = (jsSlice d 100000).data ++ rest) ∧
      buildChatPrompt code hist msg none = chatPromptHead code hist msg ∧
      buildChatPrompt code hist msg (some "") = chatPromptHead code hist msg := by
  intro p ty code msg hist d
  refine ⟨?_, ?_, ?_, ?_, ?_, ?_, ?_, ?_, ?_, ?_⟩
  · intro hd
    simp [buildGeneratePrompt, jsTruthyStr, hd, String.append_assoc]
  · rw [jsSlice, string_mk_length, List.length_take]
    exact Nat.min_le_left _ _
  · exact ⟨d.data.drop 500000, (List.take_append_drop _ _).symm⟩
  · simp [buildGeneratePrompt, jsTruthyStr]
  · simp [buildGeneratePrompt, jsTruthyStr]
  · intro hd
    simp [buildChatPrompt, jsTruthyStr, hd, String.append_assoc]
  · rw [jsSlice, string_mk_length, List.length_take]
    exact Nat.min_le_left _ _
  · exact ⟨d.data.drop 100000, (List.take_append_drop _ _).symm⟩
  · simp [buildChatPrompt, jsTruthyStr]
  · simp [buildChatPrompt, jsTruthyStr]

/-- Witness for C8 with a one-character context and with an empty one. -/
theorem prompt_doc_truncation_witness :
    buildGeneratePrompt "p" .script (some "D") =
      generatePromptHead "p" .script ++ generateDocPre ++ jsSlice "D" 500000
        ++ generateDocPost ++ generatePromptTail ∧
    buildChatPrompt "c" [] "m" (some "D") =
      chatPromptHead "c" [] "m" ++ chatDocPre ++ jsSlice "D" 100000 ++ chatDocPost ∧
    buildGeneratePrompt "p" .script none =
      generatePromptHead "p" .script ++ generatePromptTail := by
  have h := prompt_doc_truncation "p" .script "c" "m" [] "D"
  exact ⟨h.1 (by decide), h.2.2.2.2.2.1 (by decide), h.2.2.2.1⟩

/-- C6: each adapter returns the parsed fields of the structured reply or
throws: an API error propagates, a response with no text (absent or empty)
throws the fixed error, and a returned value is exactly the parse of the
fence-cleaned response text. -/
theorem api_adapters_parse_or_throw :
    ∀ (pg : String → Except String GenResult)
      (pc : String → Except String ChatResult) (ar : Except String ApiResponse),
      (∀ resp, ar = .ok resp → (resp.text = none ∨ resp.text = some "") →
        generateMql5 pg ar = .error noResponseMessage ∧
        chatWithCode pc ar = .error noResponseMessage) ∧
      (∀ e, ar = .error e →
        generateMql5 pg ar = .error e ∧ chatWithCode pc ar = .error e) ∧
      (∀ r, generateMql5 pg ar = .ok r →
        ∃ s, ar = .ok ⟨some s⟩ ∧ s ≠ "" ∧ pg (cleanJsonOutput s) = .ok r) ∧
      (∀ r, chatWithCode pc ar = .ok r →
        ∃ s, ar = .ok ⟨some s⟩ ∧ s ≠ "" ∧ pc (cleanJsonOutput s) = .ok r) := by
  intro pg pc ar
  refine ⟨?_, ?_, ?_, ?_⟩
  · intro resp h ht
    subst h
    rcases ht with h | h <;> simp [generateMql5, chatWithCode, h]
  · intro e h
    subst h
    simp [generateMql5, chatWithCode]
  · intro r h
    cases ar with
    | error e => simp [generateMql5] at h
    | ok resp =>
      cases hx : resp.text with
      | none => rw [generateMql5, hx] at h; simp at h
      | some s =>
        by_cases hs : s = ""
        · rw [generateMql5, hx] at h
          simp [hs] at h
        · refine ⟨s, ?_, hs, ?_⟩
          · cases resp
            simp_all
          · rw [generateMql5, hx] at h
            simpa [hs] using h
  · intro r h
    cases ar with
    | error e => simp [chatWithCode] at h
    | ok resp =>
      cases hx : resp.text with
      | none => rw [chatWithCode, hx] at h; simp at h
      | some s =>
        by_cases hs : s = ""
        · rw [chatWithCode, hx] at h
          simp [hs] at h
        · refine ⟨s, ?_, hs, ?_⟩
          · cases resp
            simp_all
          · rw [chatWithCode, hx] at h
            simpa [hs] using h

/-- Witness for C6: a response carrying empty text makes both adapters
throw, and a response carrying a fenced JSON text is parsed. -/
theorem api_adapters_parse_or_throw_witness :
    generateMql5 (fun t => .ok ⟨t, "ex"⟩) (.ok ⟨some ""⟩) =
      .error noResponseMessage ∧
    chatWithCode (fun t => .ok ⟨t, none⟩) (.ok ⟨some ""⟩) =
      .error noResponseMessage := by
  have h :=
    (api_adapters_parse_or_throw (fun t => .ok ⟨t, "ex"⟩)
      (fun t => .ok ⟨t, none⟩) (.ok ⟨some ""⟩)).1 ⟨some ""⟩ rfl (Or.inr rfl)
  exact h

/-- The page loop equals the page-order concatenation of the per-page
texts, or stops at the first failing page with that page&apos;s error. -/
theorem extractPagesAux_spec (doc : PdfDoc) :
    ∀ (n i : Nat) (acc : String),
      extractPagesAux doc n i acc =
        match pageTexts doc n i with
        | .error e => .error e
        | .ok ts => .ok (acc ++ concatPages (List.range' i n) ts) := by
  intro n
  induction n with
  | zero =>
    intro i acc
    simp [extractPagesAux, pageTexts, concatPages]
  | succ m ih =>
    intro i acc
    rw [extractPagesAux, pageTexts]
    cases hpi : doc.pageItems i with
    | error e => simp
    | ok items =>
      dsimp only
      rw [ih (i + 1) (acc ++ pdfPageSep i ++ String.intercalate " " items)]
      cases hr : pageTexts doc m (i + 1) with
      | error e => simp
      | ok ts =>
        simp [List.range'_succ, concatPages, String.append_assoc]

/-- C5: `extractTextFromPdf` either returns the concatenation, in page
order from page 1 up to the reported page count, of each page&apos;s
extracted text with each page preceded by its separator, or throws the
single fixed error when the file cannot be read or any page fails; an `ok`
result is never partial because it requires every page text. -/
theorem extractTextFromPdf_full_or_error :
    ∀ (file : Except String PdfDoc),
      (∀ e, file = .error e → extractTextFromPdf file = .error pdfErrorMessage) ∧
      (∀ doc, file = .ok doc →
        (∀ e, pageTexts doc doc.numPages 1 = .error e →
          extractTextFromPdf file = .error pdfErrorMessage) ∧
        (∀ ts, pageTexts doc doc.numPages 1 = .ok ts →
          extractTextFromPdf file =
            .ok (concatPages (List.range' 1 doc.numPages) ts))) := by
  intro file
  refine ⟨?_, ?_⟩
  · intro e h
    subst h
    rfl
  · intro doc h
    subst h
    refine ⟨?_, ?_⟩
    · intro e he
      rw [extractTextFromPdf, extractPagesAux_spec doc doc.numPages 1 "", he]
    · intro ts hts
      rw [extractTextFromPdf, extractPagesAux_spec doc doc.numPages 1 "", hts]
      simp

/-- Witness for C5 on the two-page sample document. -/
theorem extractTextFromPdf_full_or_error_witness :
    extractTextFromPdf (.ok sampleDoc) =
      .ok "\n--- Page 1 ---\n1 text\n--- Page 2 ---\n2 text" := by
  have h :=
    ((extractTextFromPdf_full_or_error (.ok sampleDoc)).2 sampleDoc rfl).2
      ["1 text", "2 text"] rfl
  exact h.trans (by rfl)

/-! ### Claims about the component handlers -/

/-- C9: when extraction of an uploaded PDF fails, `processFile` leaves the
no-file state (uploaded file reset to `none`, extracted content reset to
the empty string, and the parse error recorded); on success the extracted
text fully replaces any previous content and the file is recorded. -/
theorem processFile_failure_resets :
    ∀ (s : AppState) (f : FileMeta) (e t : String),
      f.type = "application/pdf" →
      ((processFile s f (.error e)).uploadedFile = none ∧
        (processFile s f (.error e)).pdfContent = "" ∧
        (processFile s f (.error e)).error = some (pdfParseFallback e)) ∧
      ((processFile s f (.ok t)).pdfContent = t ∧
        (processFile s f (.ok t)).uploadedFile = some f ∧
        (processFile s f (.ok t)).error = none) := by
  intro s f e t hf
  refine ⟨⟨?_, ?_, ?_⟩, ?_, ?_, ?_⟩ <;> simp [processFile, hf]

/-- Witness for C9: a failing and a succeeding parse of a PDF upload, from
a state that already holds stale PDF content. -/
theorem processFile_failure_resets_witness :
    (processFile { initialState with pdfContent := "stale" } ⟨"doc.pdf", "application/pdf"⟩
        (.error "bad xref")).uploadedFile = none ∧
    (processFile { initialState with pdfContent := "stale" } ⟨"doc.pdf", "application/pdf"⟩
        (.error "bad xref")).pdfContent = "" ∧
    (processFile { initialState with pdfContent := "stale" } ⟨"doc.pdf", "application/pdf"⟩
        (.ok "fresh text")).pdfContent = "fresh text" := by
  have h :=
    processFile_failure_resets { initialState with pdfContent := "stale" }
      ⟨"doc.pdf", "application/pdf"⟩ "bad xref" "fresh text" rfl
  exact ⟨h.1.1, h.1.2.1, h.2.1⟩

/-- C10: a prompt that is blank after trimming makes `handleGenerate`
return with the state unchanged and no request dispatched, and a blank
chat input or an in-flight chat request makes `handleChatSubmit` do the
same. -/
theorem blank_input_guards :
    ∀ (s : AppState) (t t1 t2 : Nat) (r : Except String GenResult)
      (cr : Except Unit ChatResult),
      (jsTrim s.prompt = "" → handleGenerate s t r = (s, none)) ∧
      (jsTrim s.chatInput = "" ∨ s.isChatLoading = true →
        handleChatSubmit s t1 t2 cr = (s, none)) := by
  intro s t t1 t2 r cr
  constructor
  · intro h
    simp [handleGenerate, h]
  · intro h
    rcases h with h | h <;> simp [handleChatSubmit, h]

/-- Witness for C10 at a whitespace-only prompt, a whitespace-only chat
input, and an in-flight chat request. -/
theorem blank_input_guards_witness :
    handleGenerate { initialState with prompt := " \t " } 5 (.ok ⟨"c", "e"⟩) =
      ({ initialState with prompt := " \t " }, none) ∧
    handleChatSubmit { initialState with chatInput := "  " } 1 2 (.ok ⟨"r", none⟩) =
      ({ initialState with chatInput := "  " }, none) ∧
    handleChatSubmit { initialState with chatInput := "go", isChatLoading := true } 1 2
        (.ok ⟨"r", none⟩) =
      ({ initialState with chatInput := "go", isChatLoading := true }, none) := by
  refine ⟨?_, ?_, ?_⟩
  · exact (blank_input_guards { initialState with prompt := " \t " } 5 1 2
      (.ok ⟨"c", "e"⟩) (.ok ⟨"r", none⟩)).1 (by decide)
  · exact (blank_input_guards { initialState with chatInput := "  " } 5 1 2
      (.ok ⟨"c", "e"⟩) (.ok ⟨"r", none⟩)).2 (Or.inl (by decide))
  · exact (blank_input_guards { initialState with chatInput := "go", isChatLoading := true }
      5 1 2 (.ok ⟨"c", "e"⟩) (.ok ⟨"r", none⟩)).2 (Or.inr rfl)

/-- C7: a history record is created exactly on each successful generation,
prepended so the newest record is first, and every other operation (and a
failed or guarded generation) leaves the history list — hence every
existing record — unchanged. -/
theorem history_prepend_and_frame :
    ∀ (s : AppState) (op : Op),
      (∀ t r, op = .generate t (.ok r) → jsTrim s.prompt ≠ "" →
        (step s op).history =
          { id := Nat.repr t, prompt := s.prompt, type := s.codeType,
            code := r.code, timestamp := t } :: s.history) ∧
      (∀ t r, op = .generate t (.ok r) → jsTrim s.prompt = "" →
        (step s op).history = s.history) ∧
      ((∀ t r, op ≠ .generate t (.ok r)) → (step s op).history = s.history) := by
  intro s op
  refine ⟨?_, ?_, ?_⟩
  · intro t r h hp
    subst h
    simp [step, handleGenerate, hp]
  · intro t r h hp
    subst h
    simp [step, handleGenerate, hp]
  · intro hne
    cases op with
    | generate t res =>
      cases res with
      | ok r => exact absurd rfl (hne t r)
      | error m =>
        by_cases hp : jsTrim s.prompt = "" <;> simp [step, handleGenerate, hp]
    | chatSubmit t1 t2 res =>
      by_cases hc : (jsTrim s.chatInput == "" || s.isChatLoading) = true
      · simp [step, handleChatSubmit, hc]
      · cases res <;> simp [step, handleChatSubmit, hc]
    | restore t idx =>
      cases hg : s.history[idx]? <;> simp [step, restoreFromHistory, hg]
    | fileUpload f res =>
      by_cases hf : (f.type != "application/pdf") = true
      · simp [step, processFile, hf]
      · cases res <;> simp [step, processFile, hf]
    | fileRemove => simp [step, removeFile]
    | setPromptText v => rfl
    | setChatInputText v => rfl
    | setCodeTypeValue v => rfl
    | setActiveTabValue v => rfl

/-- Witness for C7: a successful generation prepends exactly one record,
and restoring from history leaves the history list unchanged. -/
theorem history_prepend_and_frame_witness :
    (step genWitState (.generate 5 (.ok ⟨"c", "e"⟩))).history =
      { id := Nat.repr 5, prompt := "p", type := .expertAdvisor,
        code := "c", timestamp := 5 } :: genWitState.history ∧
    (step restoreWitState (.restore 9 0)).history = restoreWitState.history := by
  constructor
  · exact (history_prepend_and_frame genWitState (.generate 5 (.ok ⟨"c", "e"⟩))).1
      5 ⟨"c", "e"⟩ rfl (by decide)
  · exact (history_prepend_and_frame restoreWitState (.restore 9 0)).2.2
      (fun t r h => Op.noConfusion h)

/-- Counterexample to C2 as stated: the conversation-turn list is not
append-only across all operations — a successful generation removes the
existing user turn. -/
theorem chat_turn_removed_by_generate :
    (⟨Nat.repr 1, .user, "q", none, 1⟩ : ChatMessage) ∈ c2State.chatMessages ∧
    (⟨Nat.repr 1, .user, "q", none, 1⟩ : ChatMessage) ∉
      (step c2State (.generate 10 (.ok ⟨"c", "e"⟩))).chatMessages := by
  decide

/-- C2 (amended): every operation on the UI state leaves the chat message
list unchanged, extends it at the end (chat submission), or replaces it by
a single fresh message (successful generation and history restore). -/
theorem chat_list_append_or_single_reset :
    ∀ (s : AppState) (op : Op),
      (step s op).chatMessages = s.chatMessages ∨
      (∃ tail, (step s op).chatMessages = s.chatMessages ++ tail) ∨
      (∃ m, (step s op).chatMessages = [m]) := by
  intro s op
  cases op with
  | generate t res =>
    by_cases hc : (jsTrim s.prompt == "") = true
    · left
      simp [step, handleGenerate, hc]
    · cases res with
      | ok r =>
        right; right
        exact ⟨initialChatMessage t s.codeType r.explanation,
          by simp [step, handleGenerate, hc]⟩
      | error m =>
        left
        simp [step, handleGenerate, hc]
  | chatSubmit t1 t2 res =>
    by_cases hc : (jsTrim s.chatInput == "" || s.isChatLoading) = true
    · left
      simp [step, handleChatSubmit, hc]
    · cases res with
      | ok r =>
        right; left
        refine ⟨[{ id := Nat.repr t1, role := .user, content := s.chatInput,
                   timestamp := t1 },
                 { id := Nat.repr (t2 + 1), role := .model, content := r.reply,
                   hasCodeUpdate := some (jsTruthyStr r.updatedCode),
                   timestamp := t2 }], ?_⟩
        simp [step, handleChatSubmit, hc]
      | error u =>
        right; left
        refine ⟨[{ id := Nat.repr t1, role := .user, content := s.chatInput,
                   timestamp := t1 },
                 { id := Nat.repr t2, role := .model, content := chatErrorReply,
                   timestamp := t2 }], ?_⟩
        simp [step, handleChatSubmit, hc]
  | restore t idx =>
    cases hg : s.history[idx]? with
    | none =>
      left
      simp [step, hg]
    | some item =>
      right; right
      exact ⟨restoredChatMessage t item.prompt, by simp [step, hg, restoreFromHistory]⟩
  | fileUpload f res =>
    left
    by_cases hf : (f.type != "application/pdf") = true
    · simp [step, processFile, hf]
    · cases res <;> simp [step, processFile, hf]
  | fileRemove =>
    left
    simp [step, removeFile]
  | setPromptText v => left; rfl
  | setChatInputText v => left; rfl
  | setCodeTypeValue v => left; rfl
  | setActiveTabValue v => left; rfl

/-- Counterexample to C3 as stated: two operations in the same millisecond
reuse an identifier, so the chat identifiers are not pairwise distinct
after this generate-then-chat sequence. -/
theorem chat_ids_collide_same_millisecond :
    ¬ ((runOps c3Trace).chatMessages.map ChatMessage.id).Nodup := by
  decide

/-! Supporting lemmas for the amended C3: bounded, duplicate-free
identifier lists and their preservation along a clock-disciplined trace. -/

theorem IdsOk.mono {b b' : Nat} {ids : List String}
    (h : IdsOk b ids) (hb : b ≤ b') : IdsOk b' ids := by
  refine ⟨?_, h.2⟩
  intro i hi
  obtain ⟨v, hv, he⟩ := h.1 i hi
  exact ⟨v, hv.trans hb, he⟩

theorem IdsOk.not_mem {b t : Nat} {ids : List String}
    (h : IdsOk b ids) (ht : b < t) : Nat.repr t ∉ ids := by
  intro hmem
  obtain ⟨v, hv, he⟩ := h.1 _ hmem
  have : t = v := nat_repr_injective he
  omega

theorem IdsOk.singleton {b t : Nat} (h : t ≤ b) : IdsOk b [Nat.repr t] := by
  refine ⟨?_, by simp⟩
  intro i hi
  rw [List.mem_singleton] at hi
  subst hi
  exact ⟨t, h, rfl⟩

theorem IdsOk.cons_new {b b' t : Nat} {ids : List String}
    (h : IdsOk b ids) (hbt : b < t) (htb' : t ≤ b') (hbb' : b ≤ b') :
    IdsOk b' (Nat.repr t :: ids) := by
  refine ⟨?_, List.nodup_cons.mpr ⟨h.not_mem hbt, h.2⟩⟩
  intro i hi
  rcases List.mem_cons.mp hi with h1 | h1
  · subst h1
    exact ⟨t, htb', rfl⟩
  · obtain ⟨v, hv, he⟩ := h.1 i h1
    exact ⟨v, hv.trans hbb', he⟩

theorem IdsOk.append_two {b b' t1 t2 : Nat} {ids : List String}
    (h : IdsOk b ids) (h1 : b < t1) (h2 : b < t2) (hne : t1 ≠ t2)
    (hb1 : t1 ≤ b') (hb2 : t2 ≤ b') (hbb' : b ≤ b') :
    IdsOk b' (ids ++ [Nat.repr t1, Nat.repr t2]) := by
  have hne' : Nat.repr t1 ≠ Nat.repr t2 := fun hq => hne (nat_repr_injective hq)
  refine ⟨?_, ?_⟩
  · intro i hi
    rcases List.mem_append.mp hi with hm | hm
    · obtain ⟨v, hv, he⟩ := h.1 i hm
      exact ⟨v, hv.trans hbb', he⟩
    · rcases List.mem_cons.mp hm with he | he
      · subst he
        exact ⟨t1, hb1, rfl⟩
      · rw [List.mem_singleton] at he
        subst he
        exact ⟨t2, hb2, rfl⟩
  · rw [List.nodup_append]
    refine ⟨h.2, by simp [hne'], ?_⟩
    intro a ha hb
    rcases List.mem_cons.mp hb with he | he
    · subst he
      exact h.not_mem h1 ha
    · rw [List.mem_singleton] at he
      subst he
      exact h.not_mem h2 ha

theorem stateIdsOk_step :
    ∀ (s : AppState) (last : Nat) (op : Op) (rest : List Op),
      StateIdsOk s (last + 1) → clockOk last (op :: rest) →
      ∃ last', StateIdsOk (step s op) (last' + 1) ∧ clockOk last' rest := by
  intro s last op rest hinv hclock
  cases op with
  | generate t res =>
    obtain ⟨hlt, hrest⟩ := hclock
    refine ⟨t, ?_, hrest⟩
    by_cases hp : (jsTrim s.prompt == "") = true
    · have hs : step s (.generate t res) = s := by simp [step, handleGenerate, hp]
      rw [hs]
      exact ⟨hinv.1.mono (by omega), hinv.2.mono (by omega)⟩
    · cases res with
      | ok r =>
        have hc : (step s (.generate t (.ok r))).chatMessages =
            [initialChatMessage t s.codeType r.explanation] := by
          simp [step, handleGenerate, hp]
        have hh : (step s (.generate t (.ok r))).history =
            { id := Nat.repr t, prompt := s.prompt, type := s.codeType,
              code := r.code, timestamp := t } :: s.history := by
          simp [step, handleGenerate, hp]
        constructor
        · rw [hc]
          simpa [initialChatMessage] using
            IdsOk.singleton (b := t + 1) (t := t) (by omega)
        · rw [hh, List.map_cons]
          exact hinv.2.cons_new (by omega) (by omega) (by omega)
      | error m =>
        have hc : (step s (.generate t (.error m))).chatMessages = s.chatMessages := by
          simp [step, handleGenerate, hp]
        have hh : (step s (.generate t (.error m))).history = s.history := by
          simp [step, handleGenerate, hp]
        rw [StateIdsOk, hc, hh]
        exact ⟨hinv.1.mono (by omega), hinv.2.mono (by omega)⟩
  | chatSubmit t1 t2 res =>
    obtain ⟨h1, h2, hrest⟩ := hclock
    refine ⟨t2, ?_, hrest⟩
    by_cases hg : (jsTrim s.chatInput == "" || s.isChatLoading) = true
    · have hs : step s (.chatSubmit t1 t2 res) = s := by simp [step, handleChatSubmit, hg]
      rw [hs]
      exact ⟨hinv.1.mono (by omega), hinv.2.mono (by omega)⟩
    · cases res with
      | ok r =>
        have hc : (step s (.chatSubmit t1 t2 (.ok r))).chatMessages =
            s.chatMessages ++
              [{ id := Nat.repr t1, role := .user, content := s.chatInput,
                 timestamp := t1 },
               { id := Nat.repr (t2 + 1), role := .model, content := r.reply,
                 hasCodeUpdate := some (jsTruthyStr r.updatedCode), timestamp := t2 }] := by
          simp [step, handleChatSubmit, hg]
        have hh : (step s (.chatSubmit t1 t2 (.ok r))).history = s.history := by
          simp [step, handleChatSubmit, hg]
        constructor
        · rw [hc, List.map_append]
          exact hinv.1.append_two (by omega) (by omega) (by omega) (by omega)
            (by omega) (by omega)
        · rw [hh]
          exact hinv.2.mono (by omega)
      | error u =>
        have hc : (step s (.chatSubmit t1 t2 (.error u))).chatMessages =
            s.chatMessages ++
              [{ id := Nat.repr t1, role := .user, content := s.chatInput,
                 timestamp := t1 },
               { id := Nat.repr t2, role := .model, content := chatErrorReply,
                 timestamp := t2 }] := by
          simp [step, handleChatSubmit, hg]
        have hh : (step s (.chatSubmit t1 t2 (.error u))).history = s.history := by
          simp [step, handleChatSubmit, hg]
        constructor
        · rw [hc, List.map_append]
          exact hinv.1.append_two (by omega) (by omega) (by omega) (by omega)
            (by omega) (by omega)
        · rw [hh]
          exact hinv.2.mono (by omega)
  | restore t idx =>
    obtain ⟨hlt, hrest⟩ := hclock
    refine ⟨t, ?_, hrest⟩
    cases hg : s.history[idx]? with
    | none =>
      have hs : step s (.restore t idx) = s := by simp [step, hg]
      rw [hs]
      exact ⟨hinv.1.mono (by omega), hinv.2.mono (by omega)⟩
    | some item =>
      have hc : (step s (.restore t idx)).chatMessages =
          [restoredChatMessage t item.prompt] := by
        simp [step, hg, restoreFromHistory]
      have hh : (step s (.restore t idx)).history = s.history := by
        simp [step, hg, restoreFromHistory]
      constructor
      · rw [hc]
        simpa [restoredChatMessage] using
          IdsOk.singleton (b := t + 1) (t := t) (by omega)
      · rw [hh]
        exact hinv.2.mono (by omega)
  | fileUpload f res =>
    refine ⟨last, ?_, hclock⟩
    have hc : (step s (.fileUpload f res)).chatMessages = s.chatMessages := by
      by_cases hf : (f.type != "application/pdf") = true
      · simp [step, processFile, hf]
      · cases res <;> simp [step, processFile, hf]
    have hh : (step s (.fileUpload f res)).history = s.history := by
      by_cases hf : (f.type != "application/pdf") = true
      · simp [step, processFile, hf]
      · cases res <;> simp [step, processFile, hf]
    rw [StateIdsOk, hc, hh]
    exact hinv
  | fileRemove =>
    exact ⟨last, hinv, hclock⟩
  | setPromptText v =>
    exact ⟨last, hinv, hclock⟩
  | setChatInputText v =>
    exact ⟨last, hinv, hclock⟩
  | setCodeTypeValue v =>
    exact ⟨last, hinv, hclock⟩
  | setActiveTabValue v =>
    exact ⟨last, hinv, hclock⟩

theorem runAux_ids :
    ∀ (ops : List Op) (s : AppState) (last : Nat),
      StateIdsOk s (last + 1) → clockOk last ops →
      ∃ last₂, StateIdsOk (ops.foldl step s) (last₂ + 1) := by
  intro ops
  induction ops with
  | nil =>
    intro s last h _
    exact ⟨last, h⟩
  | cons op rest ih =>
    intro s last h hc
    obtain ⟨last', h', hc'⟩ := stateIdsOk_step s last op rest h hc
    exact ih (step s op) last' h' hc'

/-- C3 (amended): after any sequence of operations whose successive
`Date.now()` readings each exceed the previous reading by at least 2, the
identifiers of all history records are pairwise distinct and so are the
identifiers of all chat messages.  (As stated the claim is false: readings
in the same millisecond reuse identifiers.) -/
theorem ids_unique_under_separated_clock :
    ∀ (last : Nat) (ops : List Op), clockOk last ops →
      ((runOps ops).chatMessages.map ChatMessage.id).Nodup ∧
      ((runOps ops).history.map GenerationHistoryItem.id).Nodup := by
  intro last ops h
  have hinit : StateIdsOk initialState (last + 1) := by
    refine ⟨⟨?_, ?_⟩, ⟨?_, ?_⟩⟩ <;> simp [initialState]
  obtain ⟨l₂, hok⟩ := runAux_ids ops initialState last hinit h
  exact ⟨hok.1.2, hok.2.2⟩

/-- Witness for the amended C3 on a clock-disciplined trace exercising a
generation and a chat round trip. -/
theorem ids_unique_under_separated_clock_witness :
    ((runOps clockedTrace).chatMessages.map ChatMessage.id).Nodup ∧
    ((runOps clockedTrace).history.map GenerationHistoryItem.id).Nodup := by
  refine ids_unique_under_separated_clock 0 clockedTrace ?_
  simp only [clockedTrace, clockOk]
  refine ⟨by omega, by omega, by omega, trivial⟩

end MqlArchitect
